import Mathlib

/-!
Verification development for the plugin-registration and application-lifecycle
core of `bevy_app` (file `crates/bevy_app/src/plugin.rs`).

The plugin capability set, the default hook implementations, `PluginsState`,
and the composite admission surface (`Plugins::add_to_app`,
`Plugins::add_to_app_if_new`, the `PluginGroup` dispatch and the tuple
implementations) are embedded from the source file.  The registry held by
`App` (`App::add_boxed_plugin`), the plugin-group builder and the lifecycle
controller live outside the excerpted source; those are modelled from the
specification and are marked as such in their doc comments.

Plugins mutate an abstract application world of type `W`; hooks are `W → W`
functions, which mirrors the sequential `&mut App` discipline of the source.
-/

/-- Plugins state in the application, from `plugin.rs` lines 102-113.
The Rust declaration derives `PartialOrd`/`Ord`, which order the variants in
declaration order: `Adding < Ready < Finished < Cleaned`. -/
inductive PluginsState : Type where
  | Adding : PluginsState
  | Ready : PluginsState
  | Finished : PluginsState
  | Cleaned : PluginsState
deriving DecidableEq, Fintype

/-- Numeric rank of a lifecycle state, reflecting Rust declaration order. -/
def PluginsState.toNat : PluginsState → Nat
  | PluginsState.Adding => 0
  | PluginsState.Ready => 1
  | PluginsState.Finished => 2
  | PluginsState.Cleaned => 3

/-- The derived `Ord` of the Rust enum: comparison by declaration order. -/
def PluginsState.le (a b : PluginsState) : Prop := a.toNat ≤ b.toNat

/-- Strict version of the derived order. -/
def PluginsState.lt (a b : PluginsState) : Prop := a.toNat < b.toNat

instance (a b : PluginsState) : Decidable (PluginsState.le a b) :=
  inferInstanceAs (Decidable (a.toNat ≤ b.toNat))

instance (a b : PluginsState) : Decidable (PluginsState.lt a b) :=
  inferInstanceAs (Decidable (a.toNat < b.toNat))

/-- The error enum of `bevy_app`.  The exhaustive `match` in
`Plugins::add_to_app` (`plugin.rs` lines 150-156) handles exactly the variant
`DuplicatePlugin { plugin_name }`, so the enum has this single variant. -/
inductive AppError : Type where
  | DuplicatePlugin (plugin_name : String) : AppError
deriving DecidableEq

/-- Model of Rust type identities as produced by `core::any::type_name`:
either a plain (non-generic) type, or a generic head applied to a type
parameter, printed as `Head<Param>`. -/
inductive RustType : Type where
  | base (n : String) : RustType
  | generic (head : String) (param : RustType) : RustType
deriving DecidableEq

/-- The string `core::any::type_name` renders for a `RustType`. -/
def type_name : RustType → String
  | RustType.base n => n
  | RustType.generic h p => h ++ "<" ++ type_name p ++ ">"

/-- The `Plugin` trait of `plugin.rs` lines 57-92, as a capability record:
`build`, `ready`, `finish`, `cleanup`, `name`, `is_unique`.  Hooks act on the
abstract application world `W`. -/
structure Plugin (W : Type) : Type where
  build : W → W
  ready : W → Bool
  finish : W → W
  cleanup : W → W
  name : String
  is_unique : Bool

/-- A plugin type that implements only the mandatory `build` hook and takes
the trait defaults of `plugin.rs` lines 61-91: `ready` constantly true,
`finish` and `cleanup` doing nothing, `name` the type name of the
implementing type, `is_unique` true. -/
def Plugin.ofBuild {W : Type} (ty : RustType) (build : W → W) : Plugin W :=
  { build := build
    ready := fun _ => true
    finish := fun w => w
    cleanup := fun w => w
    name := type_name ty
    is_unique := true }

/-- The blanket impl of `Plugin` for `T: Fn(&mut App) + Send + Sync` at
`plugin.rs` lines 96-100: `build` invokes the function itself, every other
capability takes the trait default. -/
def fnPlugin {W : Type} (ty : RustType) (f : W → W) : Plugin W :=
  { build := fun w => f w
    ready := fun _ => true
    finish := fun w => w
    cleanup := fun w => w
    name := type_name ty
    is_unique := true }

/-- The application: ordered plugin registry, abstract world, lifecycle
state, and the informational log.  The registry is ordered and insertion
order is significant (spec section 3). -/
structure App (W : Type) : Type where
  registry : List (Plugin W)
  world : W
  state : PluginsState
  log : List String

/-- Modelled from the spec: the query entry point `is_plugin_added(name)` /
`Registry.contains(name)` — boolean lookup of a plugin name in the ordered
registry. -/
def App.is_plugin_added {W : Type} (app : App W) (n : String) : Bool :=
  app.registry.any (fun p => p.name == n)

/-- Modelled from the spec: `App::add_boxed_plugin` / `Registry.register`,
whose body is outside the excerpted source.  Per spec section 4.1 it inserts
the descriptor at the end of the ordered sequence unless a same-named entry
already exists and the descriptor declares itself unique, in which case it
reports `DuplicatePlugin{name}`; on success the new descriptor's `build`
hook runs immediately (composition is eager, spec section 4.4). -/
def App.add_boxed_plugin {W : Type} (app : App W) (p : Plugin W) :
    Except AppError (App W) :=
  if p.is_unique && app.is_plugin_added p.name then
    Except.error (AppError.DuplicatePlugin p.name)
  else
    Except.ok { app with registry := app.registry ++ [p],
                         world := p.build app.world }

/-- The panic message of `Plugins::add_to_app` (`plugin.rs` lines 152-154). -/
def duplicatePanicMsg (n : String) : String :=
  "Error adding plugin " ++ n ++ ": : plugin was already added in application"

/-- The informational message of `Plugins::add_to_app_if_new`
(`plugin.rs` line 165). -/
def skipInfoMsg (n : String) : String :=
  "Skip duplicate plugin " ++ n

/-- Result of a strict admission: either the updated application, or a panic
carrying the panic message and the application state at the moment of the
panic (the caller's `&mut App` retains all mutations made so far). -/
inductive Outcome (W : Type) : Type where
  | ok : App W → Outcome W
  | panic : String → App W → Outcome W

/-- Modelled from the spec: one entry of a plugin group's ordering list — a
constructed descriptor together with its enabled flag (spec section 4.3,
`set_enabled`). -/
structure GroupEntry (W : Type) : Type where
  plugin : Plugin W
  enabled : Bool

/-- Modelled from the spec: a plugin group, kept as its ordering list of
entries (spec section 4.3); the type itself is outside the excerpted
source. -/
structure PluginGroup (W : Type) : Type where
  entries : List (GroupEntry W)

/-- Modelled from the spec: `PluginGroup::build` — produce the final ordered
sequence of constructed descriptors, skipping disabled entries (spec
section 4.3). -/
def PluginGroup.build {W : Type} (g : PluginGroup W) : List (Plugin W) :=
  (g.entries.filter (fun e => e.enabled)).map (fun e => e.plugin)

/-- Modelled from the spec: `PluginGroupBuilder::finish(app, if_new)` —
admit each resolved descriptor in order, passing the policy down: a
duplicate is a panic under the strict policy (`if_new = false`) and an
informational skip under the idempotent one (`if_new = true`)
(spec sections 4.2 and 7). -/
def PluginGroupBuilder.finish {W : Type} (if_new : Bool) :
    List (Plugin W) → App W → Outcome W
  | [], app => Outcome.ok app
  | d :: ds, app =>
    match app.add_boxed_plugin d with
    | Except.ok a => PluginGroupBuilder.finish if_new ds a
    | Except.error (AppError.DuplicatePlugin n) =>
      if if_new then
        PluginGroupBuilder.finish if_new ds
          { app with log := app.log ++ [skipInfoMsg n] }
      else
        Outcome.panic (duplicatePanicMsg n) app

mutual

/-- An admittable value of the sealed `Plugins` trait (`plugin.rs`
lines 122-226): a single plugin, a plugin group, or a tuple of admittable
values. -/
inductive PluginsInput (W : Type) : Type where
  | plugin : Plugin W → PluginsInput W
  | group : PluginGroup W → PluginsInput W
  | tuple : PluginsList W → PluginsInput W

/-- The element list of a tuple of admittable values. -/
inductive PluginsList (W : Type) : Type where
  | nil : PluginsList W
  | cons : PluginsInput W → PluginsList W → PluginsList W

end

/-- Number of elements of a tuple of admittable values. -/
def PluginsList.length {W : Type} : PluginsList W → Nat
  | PluginsList.nil => 0
  | PluginsList.cons _ xs => xs.length + 1

mutual

/-- Arity discipline of the `all_tuples!` expansion (`plugin.rs`
lines 218-225): the `Plugins` impl exists for tuples of arities 0 through 15
only, at every nesting level. -/
def wfInput {W : Type} : PluginsInput W → Bool
  | PluginsInput.plugin _ => true
  | PluginsInput.group _ => true
  | PluginsInput.tuple l => decide (l.length ≤ 15) && wfList l

/-- Arity discipline for each element of a tuple. -/
def wfList {W : Type} : PluginsList W → Bool
  | PluginsList.nil => true
  | PluginsList.cons x xs => wfInput x && wfList xs

end

mutual

/-- Strict admission, `Plugins::add_to_app` (`plugin.rs` lines 146-158 for a
single plugin, 172-176 for a group, 196-201 for tuples): a single plugin is
boxed and registered, and a `DuplicatePlugin` error becomes a panic naming
the plugin; a group is resolved by `build` and finished under the strict
policy; a tuple admits its elements left to right. -/
def add_to_app {W : Type} : PluginsInput W → App W → Outcome W
  | PluginsInput.plugin p, app =>
    match app.add_boxed_plugin p with
    | Except.ok a => Outcome.ok a
    | Except.error (AppError.DuplicatePlugin n) =>
      Outcome.panic (duplicatePanicMsg n) app
  | PluginsInput.group g, app => PluginGroupBuilder.finish false g.build app
  | PluginsInput.tuple l, app => add_list_to_app l app

/-- Strict admission of the elements of a tuple, left to right; a panic
aborts the remaining elements. -/
def add_list_to_app {W : Type} : PluginsList W → App W → Outcome W
  | PluginsList.nil, app => Outcome.ok app
  | PluginsList.cons x xs, app =>
    match add_to_app x app with
    | Outcome.ok a => add_list_to_app xs a
    | Outcome.panic m a => Outcome.panic m a

end

mutual

/-- Idempotent admission, `Plugins::add_to_app_if_new` (`plugin.rs`
lines 160-169 for a single plugin, 178-182 for a group, 208-213 for tuples):
a `DuplicatePlugin` error is downgraded to an informational log entry and
the call returns normally. -/
def add_to_app_if_new {W : Type} : PluginsInput W → App W → Outcome W
  | PluginsInput.plugin p, app =>
    match app.add_boxed_plugin p with
    | Except.ok a => Outcome.ok a
    | Except.error (AppError.DuplicatePlugin n) =>
      Outcome.ok { app with log := app.log ++ [skipInfoMsg n] }
  | PluginsInput.group g, app => PluginGroupBuilder.finish true g.build app
  | PluginsInput.tuple l, app => add_list_to_app_if_new l app

/-- Idempotent admission of the elements of a tuple, left to right. -/
def add_list_to_app_if_new {W : Type} : PluginsList W → App W → Outcome W
  | PluginsList.nil, app => Outcome.ok app
  | PluginsList.cons x xs, app =>
    match add_to_app_if_new x app with
    | Outcome.ok a => add_list_to_app_if_new xs a
    | Outcome.panic m a => Outcome.panic m a

end

mutual

/-- Literal left-to-right, depth-first flattening of an admittable value
into its sequence of plugin descriptors. -/
def flatten {W : Type} : PluginsInput W → List (Plugin W)
  | PluginsInput.plugin p => [p]
  | PluginsInput.group g => g.build
  | PluginsInput.tuple l => flattenList l

/-- Flattening of a tuple's element list. -/
def flattenList {W : Type} : PluginsList W → List (Plugin W)
  | PluginsList.nil => []
  | PluginsList.cons x xs => flatten x ++ flattenList xs

end

/-- The application state after successfully registering a list of
descriptors: they are appended to the registry in order and their `build`
hooks run in order. -/
def App.afterAdding {W : Type} (app : App W) (ds : List (Plugin W)) : App W :=
  { app with registry := app.registry ++ ds,
             world := ds.foldl (fun w p => p.build w) app.world }

/-- Modelled from the spec: every registered plugin's `ready` hook polled in
one pass (spec section 4.4, step Adding to Ready). -/
def App.allPluginsReady {W : Type} (app : App W) : Bool :=
  app.registry.all (fun p => p.ready app.world)

/-- Modelled from the spec: `advance_if_ready` — move from Adding to Ready
exactly when every registry entry reports ready in the same poll; otherwise
leave the application unchanged. -/
def App.advance_if_ready {W : Type} (app : App W) : App W :=
  if app.state = PluginsState.Adding ∧ app.allPluginsReady = true then
    { app with state := PluginsState.Ready }
  else app

/-- Modelled from the spec: the Ready to Finished transition — invoke
`finish` on every entry exactly once, in registration order
(spec section 4.4, step 3). -/
def App.finishPlugins {W : Type} (app : App W) : App W :=
  if app.state = PluginsState.Ready then
    { app with world := app.registry.foldl (fun w p => p.finish w) app.world,
               state := PluginsState.Finished }
  else app

/-- Modelled from the spec: the Finished to Cleaned transition — invoke
`cleanup` on every entry exactly once, in registration order
(spec section 4.4, step 4). -/
def App.cleanupPlugins {W : Type} (app : App W) : App W :=
  if app.state = PluginsState.Finished then
    { app with world := app.registry.foldl (fun w p => p.cleanup w) app.world,
               state := PluginsState.Cleaned }
  else app

/-- Modelled from the spec: one observable step of the application's life —
an admission while in the Adding state (under either policy), or one of the
lifecycle controller's transitions (spec sections 4.4 and 6). -/
inductive LifecycleStep {W : Type} : App W → App W → Prop where
  | admitStrict (x : PluginsInput W) (app a : App W) :
      app.state = PluginsState.Adding → add_to_app x app = Outcome.ok a →
      LifecycleStep app a
  | admitIfNew (x : PluginsInput W) (app a : App W) :
      app.state = PluginsState.Adding → add_to_app_if_new x app = Outcome.ok a →
      LifecycleStep app a
  | advance (app : App W) : LifecycleStep app app.advance_if_ready
  | finishPhase (app : App W) : LifecycleStep app app.finishPlugins
  | cleanupPhase (app : App W) : LifecycleStep app app.cleanupPlugins

/-! ### Helper lemmas -/

theorem finish_append {W : Type} (b : Bool) (ds₁ ds₂ : List (Plugin W))
    (app : App W) :
    PluginGroupBuilder.finish b (ds₁ ++ ds₂) app =
      match PluginGroupBuilder.finish b ds₁ app with
      | Outcome.ok a => PluginGroupBuilder.finish b ds₂ a
      | Outcome.panic m a => Outcome.panic m a := by
  induction ds₁ generalizing app with
  | nil => simp [PluginGroupBuilder.finish]
  | cons d ds ih =>
    simp only [List.cons_append, PluginGroupBuilder.finish]
    cases h : app.add_boxed_plugin d with
    | ok a => simp [ih]
    | error e =>
      cases e with
      | DuplicatePlugin n =>
        cases b with
        | true => simp [ih]
        | false => simp

mutual

theorem add_to_app_eq_finish {W : Type} (x : PluginsInput W) (app : App W) :
    add_to_app x app = PluginGroupBuilder.finish false (flatten x) app := by
  cases x with
  | plugin p =>
    simp only [add_to_app, flatten, PluginGroupBuilder.finish]
    cases h : app.add_boxed_plugin p with
    | ok a => simp [PluginGroupBuilder.finish]
    | error e =>
      cases e with
      | DuplicatePlugin n => simp
  | group g => rfl
  | tuple l =>
    simpa only [add_to_app, flatten] using add_list_eq_finish l app

theorem add_list_eq_finish {W : Type} (l : PluginsList W) (app : App W) :
    add_list_to_app l app = PluginGroupBuilder.finish false (flattenList l) app := by
  cases l with
  | nil => rfl
  | cons x xs =>
    simp only [add_list_to_app, flattenList, finish_append]
    rw [add_to_app_eq_finish x app]
    cases PluginGroupBuilder.finish false (flatten x) app with
    | ok a => simp [add_list_eq_finish xs a]
    | panic m a => simp

end

mutual

theorem add_to_app_if_new_eq_finish {W : Type} (x : PluginsInput W) (app : App W) :
    add_to_app_if_new x app = PluginGroupBuilder.finish true (flatten x) app := by
  cases x with
  | plugin p =>
    simp only [add_to_app_if_new, flatten, PluginGroupBuilder.finish]
    cases h : app.add_boxed_plugin p with
    | ok a => simp [PluginGroupBuilder.finish]
    | error e =>
      cases e with
      | DuplicatePlugin n => simp [PluginGroupBuilder.finish]
  | group g => rfl
  | tuple l =>
    simpa only [add_to_app_if_new, flatten] using add_list_if_new_eq_finish l app

theorem add_list_if_new_eq_finish {W : Type} (l : PluginsList W) (app : App W) :
    add_list_to_app_if_new l app =
      PluginGroupBuilder.finish true (flattenList l) app := by
  cases l with
  | nil => rfl
  | cons x xs =>
    simp only [add_list_to_app_if_new, flattenList, finish_append]
    rw [add_to_app_if_new_eq_finish x app]
    cases PluginGroupBuilder.finish true (flatten x) app with
    | ok a => simp [add_list_if_new_eq_finish xs a]
    | panic m a => simp

end

theorem afterAdding_nil {W : Type} (app : App W) : app.afterAdding [] = app := by
  simp [App.afterAdding]

theorem afterAdding_append {W : Type} (app : App W) (ds₁ ds₂ : List (Plugin W)) :
    app.afterAdding (ds₁ ++ ds₂) = (app.afterAdding ds₁).afterAdding ds₂ := by
  simp [App.afterAdding, List.foldl_append, List.append_assoc]

theorem afterAdding_cons {W : Type} (app : App W) (d : Plugin W)
    (ds : List (Plugin W)) :
    app.afterAdding (d :: ds) = (app.afterAdding [d]).afterAdding ds := by
  simp [App.afterAdding]

theorem is_plugin_added_afterAdding_single {W : Type} (app : App W)
    (d : Plugin W) (n : String) :
    (app.afterAdding [d]).is_plugin_added n =
      (app.is_plugin_added n || (d.name == n)) := by
  simp [App.afterAdding, App.is_plugin_added]

theorem add_boxed_plugin_ok {W : Type} (app a : App W) (p : Plugin W)
    (h : app.add_boxed_plugin p = Except.ok a) :
    a = { app with registry := app.registry ++ [p],
                   world := p.build app.world } := by
  unfold App.add_boxed_plugin at h
  split at h
  · exact absurd h (by simp)
  · simpa using h.symm

theorem add_boxed_plugin_error {W : Type} (app : App W) (p : Plugin W)
    (e : AppError) (h : app.add_boxed_plugin p = Except.error e) :
    e = AppError.DuplicatePlugin p.name ∧ p.is_unique = true ∧
      app.is_plugin_added p.name = true := by
  unfold App.add_boxed_plugin at h
  split at h
  case isTrue hc =>
    refine ⟨by simpa using h.symm, ?_, ?_⟩
    · exact (Bool.and_eq_true .. ▸ hc).1
    · exact (Bool.and_eq_true .. ▸ hc).2
  case isFalse hc => exact absurd h (by simp)

theorem add_boxed_plugin_dup {W : Type} (app : App W) (p : Plugin W)
    (h1 : p.is_unique = true) (h2 : app.is_plugin_added p.name = true) :
    app.add_boxed_plugin p = Except.error (AppError.DuplicatePlugin p.name) := by
  simp [App.add_boxed_plugin, h1, h2]

theorem add_boxed_plugin_fresh {W : Type} (app : App W) (p : Plugin W)
    (h : app.is_plugin_added p.name = false) :
    app.add_boxed_plugin p = Except.ok (app.afterAdding [p]) := by
  simp [App.add_boxed_plugin, h, App.afterAdding]

/-- Fresh admission condition: the descriptors carry pairwise distinct names
and none of those names is registered in the application yet. -/
def freshNames {W : Type} (app : App W) (ds : List (Plugin W)) : Prop :=
  (ds.map Plugin.name).Nodup ∧ ∀ d ∈ ds, app.is_plugin_added d.name = false

theorem finish_fresh {W : Type} (b : Bool) (ds : List (Plugin W)) (app : App W)
    (h : freshNames app ds) :
    PluginGroupBuilder.finish b ds app = Outcome.ok (app.afterAdding ds) := by
  induction ds generalizing app with
  | nil => simp [PluginGroupBuilder.finish, afterAdding_nil]
  | cons d ds ih =>
    obtain ⟨hnodup, hfresh⟩ := h
    have hd : app.is_plugin_added d.name = false := hfresh d (by simp)
    have hstep := add_boxed_plugin_fresh app d hd
    simp only [PluginGroupBuilder.finish, hstep]
    have hmap := hnodup
    rw [List.map_cons, List.nodup_cons] at hmap
    have hnotin : d.name ∉ ds.map Plugin.name := hmap.1
    have hrest : freshNames (app.afterAdding [d]) ds := by
      refine ⟨hmap.2, ?_⟩
      intro e he
      rw [is_plugin_added_afterAdding_single]
      have h1 : app.is_plugin_added e.name = false := hfresh e (List.mem_cons_of_mem _ he)
      have h2 : d.name ≠ e.name := by
        intro hEq
        exact hnotin (hEq ▸ List.mem_map_of_mem Plugin.name he)
      simp [h1, h2]
    rw [ih _ hrest, ← afterAdding_cons]

theorem finish_ok_state {W : Type} (b : Bool) (ds : List (Plugin W))
    (app a : App W) (h : PluginGroupBuilder.finish b ds app = Outcome.ok a) :
    a.state = app.state := by
  induction ds generalizing app with
  | nil =>
    simp only [PluginGroupBuilder.finish] at h
    cases h
    rfl
  | cons d ds ih =>
    simp only [PluginGroupBuilder.finish] at h
    cases he : app.add_boxed_plugin d with
    | ok a' =>
      rw [he] at h
      have := add_boxed_plugin_ok app a' d he
      have hs := ih a' h
      rw [hs, this]
    | error e =>
      cases e with
      | DuplicatePlugin n =>
        rw [he] at h
        cases b with
        | true =>
          dsimp only at h
          rw [if_pos rfl] at h
          exact ih { app with log := app.log ++ [skipInfoMsg n] } h
        | false =>
          dsimp only at h
          simp at h

/-- Concatenation of tuple element lists. -/
def PluginsList.append {W : Type} : PluginsList W → PluginsList W → PluginsList W
  | PluginsList.nil, l => l
  | PluginsList.cons x xs, l => PluginsList.cons x (xs.append l)

theorem flattenList_append {W : Type} (l₁ l₂ : PluginsList W) :
    flattenList (l₁.append l₂) = flattenList l₁ ++ flattenList l₂ := by
  cases l₁ with
  | nil => simp [PluginsList.append, flattenList]
  | cons x xs =>
    simp [PluginsList.append, flattenList, flattenList_append xs l₂,
      List.append_assoc]

theorem lifecycleStep_state_le {W : Type} (s t : App W) (h : LifecycleStep s t) :
    PluginsState.le s.state t.state := by
  cases h with
  | admitStrict x app a hS hOk =>
    rw [add_to_app_eq_finish] at hOk
    rw [finish_ok_state _ _ _ _ hOk]
    exact Nat.le_refl _
  | admitIfNew x app a hS hOk =>
    rw [add_to_app_if_new_eq_finish] at hOk
    rw [finish_ok_state _ _ _ _ hOk]
    exact Nat.le_refl _
  | advance app =>
    unfold App.advance_if_ready
    split
    case isTrue hc =>
      rw [hc.1]
      exact (by decide : PluginsState.le PluginsState.Adding PluginsState.Ready)
    case isFalse hc => exact Nat.le_refl _
  | finishPhase app =>
    unfold App.finishPlugins
    split
    case isTrue hc =>
      rw [hc]
      exact (by decide : PluginsState.le PluginsState.Ready PluginsState.Finished)
    case isFalse hc => exact Nat.le_refl _
  | cleanupPhase app =>
    unfold App.cleanupPlugins
    split
    case isTrue hc =>
      rw [hc]
      exact (by decide : PluginsState.le PluginsState.Finished PluginsState.Cleaned)
    case isFalse hc => exact Nat.le_refl _

theorem lifecycleStep_cleaned_terminal {W : Type} (s t : App W)
    (h : LifecycleStep s t) (hc : s.state = PluginsState.Cleaned) :
    t.state = PluginsState.Cleaned := by
  cases h with
  | admitStrict x app a hS hOk => rw [hS] at hc; simp at hc
  | admitIfNew x app a hS hOk => rw [hS] at hc; simp at hc
  | advance app =>
    unfold App.advance_if_ready
    split
    case isTrue hcond => rw [hc] at hcond; simp at hcond
    case isFalse hcond => exact hc
  | finishPhase app =>
    unfold App.finishPlugins
    split
    case isTrue hcond => rw [hc] at hcond; simp at hcond
    case isFalse hcond => exact hc
  | cleanupPhase app =>
    unfold App.cleanupPlugins
    split
    case isTrue hcond => rfl
    case isFalse hcond => exact hc

theorem lifecycle_mono {W : Type} (s t : App W)
    (h : Relation.ReflTransGen (fun a b => LifecycleStep (W := W) a b) s t) :
    PluginsState.le s.state t.state := by
  induction h with
  | refl => exact Nat.le_refl _
  | tail hst hstep ih => exact Nat.le_trans ih (lifecycleStep_state_le _ _ hstep)

theorem type_name_generic_inj (h s t : String)
    (hEq : type_name (RustType.generic h (RustType.base s)) =
      type_name (RustType.generic h (RustType.base t))) : s = t := by
  simp only [type_name] at hEq
  have hd : (h ++ "<" ++ s ++ ">").data = (h ++ "<" ++ t ++ ">").data := by
    rw [hEq]
  simp only [String.data_append] at hd
  have h2 := List.append_cancel_right hd
  have h3 := List.append_cancel_left h2
  cases s
  cases t
  exact congrArg String.mk h3

theorem add_list_to_app_append {W : Type} (l₁ l₂ : PluginsList W) (app : App W) :
    add_list_to_app (l₁.append l₂) app =
      match add_list_to_app l₁ app with
      | Outcome.ok a => add_list_to_app l₂ a
      | Outcome.panic m a => Outcome.panic m a := by
  rw [add_list_eq_finish, flattenList_append, finish_append,
    add_list_eq_finish l₁ app]
  cases PluginGroupBuilder.finish false (flattenList l₁) app with
  | ok a => exact (add_list_eq_finish l₂ a).symm
  | panic m a => rfl

theorem add_list_to_app_if_new_append {W : Type} (l₁ l₂ : PluginsList W)
    (app : App W) :
    add_list_to_app_if_new (l₁.append l₂) app =
      match add_list_to_app_if_new l₁ app with
      | Outcome.ok a => add_list_to_app_if_new l₂ a
      | Outcome.panic m a => Outcome.panic m a := by
  rw [add_list_if_new_eq_finish, flattenList_append, finish_append,
    add_list_if_new_eq_finish l₁ app]
  cases PluginGroupBuilder.finish true (flattenList l₁) app with
  | ok a => exact (add_list_if_new_eq_finish l₂ a).symm
  | panic m a => rfl

theorem add_to_app_dup {W : Type} (p : Plugin W) (app : App W)
    (h1 : p.is_unique = true) (h2 : app.is_plugin_added p.name = true) :
    add_to_app (PluginsInput.plugin p) app =
      Outcome.panic (duplicatePanicMsg p.name) app := by
  simp [add_to_app, add_boxed_plugin_dup app p h1 h2]

theorem add_to_app_if_new_dup {W : Type} (p : Plugin W) (app : App W)
    (h1 : p.is_unique = true) (h2 : app.is_plugin_added p.name = true) :
    add_to_app_if_new (PluginsInput.plugin p) app =
      Outcome.ok { app with log := app.log ++ [skipInfoMsg p.name] } := by
  simp [add_to_app_if_new, add_boxed_plugin_dup app p h1 h2]

theorem add_to_app_fresh {W : Type} (p : Plugin W) (app : App W)
    (h : app.is_plugin_added p.name = false) :
    add_to_app (PluginsInput.plugin p) app =
      Outcome.ok (app.afterAdding [p]) := by
  simp [add_to_app, add_boxed_plugin_fresh app p h]

theorem add_to_app_if_new_fresh {W : Type} (p : Plugin W) (app : App W)
    (h : app.is_plugin_added p.name = false) :
    add_to_app_if_new (PluginsInput.plugin p) app =
      Outcome.ok (app.afterAdding [p]) := by
  simp [add_to_app_if_new, add_boxed_plugin_fresh app p h]

/-! ### Concrete sample data used by the witnesses -/

/-- A sample plugin over the world `List String`: its `build` hook appends
its own name to the world, every other capability takes the default. -/
def samplePlugin (s : String) : Plugin (List String) :=
  Plugin.ofBuild (RustType.base s) (fun w => w ++ [s])

def pA : Plugin (List String) := samplePlugin "A"

def pB : Plugin (List String) := samplePlugin "B"

def pX : Plugin (List String) := samplePlugin "X"

/-- A second plugin value of the same concrete type identity as `pA` but a
different `build` hook: same `name`, different object. -/
def pA2 : Plugin (List String) := Plugin.ofBuild (RustType.base "A") (fun w => w)

/-- The sample group `GroupY` containing `pA` and `pB`, both enabled. -/
def groupY : PluginGroup (List String) :=
  { entries := [{ plugin := pA, enabled := true },
                { plugin := pB, enabled := true }] }

/-- The sample tuple admission `(PluginX, GroupY)` of spec section 8. -/
def inputXY : PluginsInput (List String) :=
  PluginsInput.tuple (PluginsList.cons (PluginsInput.plugin pX)
    (PluginsList.cons (PluginsInput.group groupY) PluginsList.nil))

/-- The fresh application: empty registry, empty world, state Adding. -/
def app0 : App (List String) :=
  { registry := [], world := [], state := PluginsState.Adding, log := [] }

/-- An application that already holds `pA` in its registry. -/
def appA : App (List String) :=
  { registry := [pA], world := ["A"], state := PluginsState.Adding, log := [] }

/-! ### Claim theorems -/

/-- C1: for every admittable input (a plugin, a group, or a nested tuple of
such, with the tuple arity bound of the source), admitting it under either
policy registers the elements strictly left to right, depth first, so that
under the strict policy with no duplicate names the final registry order is
the literal left-to-right, depth-first flattening of the input appended to
the existing registry. -/
theorem claim1_flatten_order {W : Type} (x : PluginsInput W) (app : App W)
    (hwf : wfInput x = true) (hfresh : freshNames app (flatten x)) :
    (∃ a, add_to_app x app = Outcome.ok a ∧
      a.registry = app.registry ++ flatten x) ∧
    (∃ a, add_to_app_if_new x app = Outcome.ok a ∧
      a.registry = app.registry ++ flatten x) := by
  constructor
  · refine ⟨app.afterAdding (flatten x), ?_, rfl⟩
    rw [add_to_app_eq_finish]
    exact finish_fresh false _ _ hfresh
  · refine ⟨app.afterAdding (flatten x), ?_, rfl⟩
    rw [add_to_app_if_new_eq_finish]
    exact finish_fresh true _ _ hfresh

/-- Witness for C1: the concrete scenario of spec section 8 — admitting the
tuple `(PluginX, GroupY)` with `GroupY = [PluginA, PluginB]` into the fresh
application yields registry order `[X, A, B]`. -/
theorem claim1_flatten_order_witness :
    wfInput inputXY = true ∧ freshNames app0 (flatten inputXY) ∧
    (∃ a, add_to_app inputXY app0 = Outcome.ok a ∧
      a.registry = app0.registry ++ flatten inputXY) ∧
    (∃ a, add_to_app_if_new inputXY app0 = Outcome.ok a ∧
      a.registry = app0.registry ++ flatten inputXY) := by
  have hwf : wfInput inputXY = true := by rfl
  have hfresh : freshNames app0 (flatten inputXY) := by
    constructor
    · show (["X", "A", "B"] : List String).Nodup
      decide
    · intro d _
      rfl
  have h := claim1_flatten_order inputXY app0 hwf hfresh
  exact ⟨hwf, hfresh, h.1, h.2⟩

/-- C2: under the strict policy, a `DuplicatePlugin` report from the
underlying registration makes the single-plugin admission fail fatally with
a panic naming the plugin, and `DuplicatePlugin` is the only error kind that
exists, so no other error kind can surface. -/
theorem claim2_strict_duplicate_fatal {W : Type} (p : Plugin W) (app : App W) :
    (∀ n, app.add_boxed_plugin p = Except.error (AppError.DuplicatePlugin n) →
      n = p.name ∧
      add_to_app (PluginsInput.plugin p) app =
        Outcome.panic (duplicatePanicMsg n) app) ∧
    (∀ e : AppError, ∃ n, e = AppError.DuplicatePlugin n) := by
  constructor
  · intro n hn
    have he := add_boxed_plugin_error app p _ hn
    have hname : n = p.name := by
      cases he.1
      rfl
    refine ⟨hname, ?_⟩
    simp [add_to_app, hn]
  · intro e
    cases e with
    | DuplicatePlugin n => exact ⟨n, rfl⟩

/-- Witness for C2: admitting `pA` into an application already holding `pA`
reports the duplicate and the strict admission panics with its name. -/
theorem claim2_strict_duplicate_fatal_witness :
    appA.add_boxed_plugin pA =
      Except.error (AppError.DuplicatePlugin (type_name (RustType.base "A"))) ∧
    add_to_app (PluginsInput.plugin pA) appA =
      Outcome.panic (duplicatePanicMsg (type_name (RustType.base "A"))) appA := by
  have h := (claim2_strict_duplicate_fatal pA appA).1
    (type_name (RustType.base "A")) (by rfl)
  exact ⟨by rfl, h.2⟩

/-- C3: under the idempotent policy, a `DuplicatePlugin` report is
downgraded to an informational log notice and the call returns normally:
the result is the same application with only the log extended — registry,
world and state untouched, so no hook of the duplicate runs. -/
theorem claim3_if_new_downgrade {W : Type} (p : Plugin W) (app : App W)
    (h1 : p.is_unique = true) (h2 : app.is_plugin_added p.name = true) :
    add_to_app_if_new (PluginsInput.plugin p) app =
      Outcome.ok { app with log := app.log ++ [skipInfoMsg p.name] } := by
  exact add_to_app_if_new_dup p app h1 h2

/-- Witness for C3: admitting `pA` a second time under the idempotent
policy returns normally, appending only the skip notice to the log. -/
theorem claim3_if_new_downgrade_witness :
    pA.is_unique = true ∧ appA.is_plugin_added pA.name = true ∧
    add_to_app_if_new (PluginsInput.plugin pA) appA =
      Outcome.ok { appA with log := appA.log ++ [skipInfoMsg pA.name] } := by
  exact ⟨rfl, rfl, claim3_if_new_downgrade pA appA rfl rfl⟩

/-- C4: a plugin type implementing only the mandatory `build` hook gets the
defaulted capability set: `ready` is true on every application, `finish` and
`cleanup` change nothing, `name` is the stable type identity of the
implementing type, and `is_unique` is true. -/
theorem claim4_default_capabilities {W : Type} (ty : RustType) (build : W → W) :
    (∀ w, (Plugin.ofBuild ty build).ready w = true) ∧
    (∀ w, (Plugin.ofBuild ty build).finish w = w) ∧
    (∀ w, (Plugin.ofBuild ty build).cleanup w = w) ∧
    (Plugin.ofBuild ty build).name = type_name ty ∧
    (Plugin.ofBuild ty build).is_unique = true ∧
    (∀ w, (Plugin.ofBuild ty build).build w = build w) := by
  exact ⟨fun w => rfl, fun w => rfl, fun w => rfl, rfl, rfl, fun w => rfl⟩

/-- C5: in a tuple admission, a duplicate at some element does not prevent
attempting the following elements under the idempotent policy, while under
the strict policy it aborts the whole admission with a panic and no
rollback: the panic carries the application state reached after the prefix,
and a fresh prefix is registered in full. -/
theorem claim5_tuple_error_policy {W : Type} (l₁ l₂ : PluginsList W)
    (p : Plugin W) (app app₁ : App W) (hu : p.is_unique = true) :
    (add_list_to_app_if_new l₁ app = Outcome.ok app₁ →
      app₁.is_plugin_added p.name = true →
      add_list_to_app_if_new
          (l₁.append (PluginsList.cons (PluginsInput.plugin p) l₂)) app =
        add_list_to_app_if_new l₂
          { app₁ with log := app₁.log ++ [skipInfoMsg p.name] }) ∧
    (add_list_to_app l₁ app = Outcome.ok app₁ →
      app₁.is_plugin_added p.name = true →
      add_list_to_app
          (l₁.append (PluginsList.cons (PluginsInput.plugin p) l₂)) app =
        Outcome.panic (duplicatePanicMsg p.name) app₁) ∧
    (freshNames app (flattenList l₁) →
      add_list_to_app l₁ app = Outcome.ok (app.afterAdding (flattenList l₁))) := by
  refine ⟨?_, ?_, ?_⟩
  · intro h hdup
    rw [add_list_to_app_if_new_append, h]
    show add_list_to_app_if_new (PluginsList.cons (PluginsInput.plugin p) l₂) app₁ = _
    rw [show add_list_to_app_if_new (PluginsList.cons (PluginsInput.plugin p) l₂) app₁ =
      match add_to_app_if_new (PluginsInput.plugin p) app₁ with
      | Outcome.ok a => add_list_to_app_if_new l₂ a
      | Outcome.panic m a => Outcome.panic m a from rfl]
    rw [add_to_app_if_new_dup p app₁ hu hdup]
  · intro h hdup
    rw [add_list_to_app_append, h]
    show add_list_to_app (PluginsList.cons (PluginsInput.plugin p) l₂) app₁ = _
    rw [show add_list_to_app (PluginsList.cons (PluginsInput.plugin p) l₂) app₁ =
      match add_to_app (PluginsInput.plugin p) app₁ with
      | Outcome.ok a => add_list_to_app l₂ a
      | Outcome.panic m a => Outcome.panic m a from rfl]
    rw [add_to_app_dup p app₁ hu hdup]
  · intro hfresh
    rw [add_list_eq_finish]
    exact finish_fresh false _ _ hfresh

/-- A one-element tuple list holding the single plugin `pA`. -/
def lA : PluginsList (List String) :=
  PluginsList.cons (PluginsInput.plugin pA) PluginsList.nil

/-- A one-element tuple list holding the single plugin `pB`. -/
def lB : PluginsList (List String) :=
  PluginsList.cons (PluginsInput.plugin pB) PluginsList.nil

/-- The application reached after admitting `pA` into the fresh one. -/
def appA1 : App (List String) := app0.afterAdding [pA]

/-- Witness for C5: a tuple whose first element registers `pA`, whose second
element is a same-named duplicate, and whose third element is `pB` — the
idempotent run continues with `pB`, the strict run panics carrying the state
that still holds `pA`. -/
theorem claim5_tuple_error_policy_witness :
    pA2.is_unique = true ∧
    add_list_to_app_if_new lA app0 = Outcome.ok appA1 ∧
    add_list_to_app lA app0 = Outcome.ok appA1 ∧
    appA1.is_plugin_added pA2.name = true ∧
    add_list_to_app_if_new
        (lA.append (PluginsList.cons (PluginsInput.plugin pA2) lB)) app0 =
      add_list_to_app_if_new lB
        { appA1 with log := appA1.log ++ [skipInfoMsg pA2.name] } ∧
    add_list_to_app
        (lA.append (PluginsList.cons (PluginsInput.plugin pA2) lB)) app0 =
      Outcome.panic (duplicatePanicMsg pA2.name) appA1 := by
  have h := claim5_tuple_error_policy lA lB pA2 app0 appA1 rfl
  exact ⟨rfl, rfl, rfl, rfl, h.1 rfl rfl, h.2.1 rfl rfl⟩

/-- C6: the lifecycle state type is the four-valued set with the total order
Adding < Ready < Finished < Cleaned, every lifecycle step keeps the observed
state non-decreasing in that order, and Cleaned is terminal. -/
theorem claim6_lifecycle_monotone {W : Type} :
    ((∀ a b : PluginsState, PluginsState.le a b ∨ PluginsState.le b a) ∧
     (∀ a b : PluginsState,
        PluginsState.le a b → PluginsState.le b a → a = b) ∧
     (∀ a b c : PluginsState,
        PluginsState.le a b → PluginsState.le b c → PluginsState.le a c) ∧
     PluginsState.lt PluginsState.Adding PluginsState.Ready ∧
     PluginsState.lt PluginsState.Ready PluginsState.Finished ∧
     PluginsState.lt PluginsState.Finished PluginsState.Cleaned) ∧
    (∀ s t : App W,
      Relation.ReflTransGen (fun a b => LifecycleStep a b) s t →
      PluginsState.le s.state t.state) ∧
    (∀ s t : App W, LifecycleStep s t → s.state = PluginsState.Cleaned →
      t.state = PluginsState.Cleaned) := by
  exact ⟨by decide, lifecycle_mono, lifecycleStep_cleaned_terminal⟩

/-- Witness for C6: one `advance_if_ready` step from the fresh application
does not decrease the observed state. -/
theorem claim6_lifecycle_monotone_witness :
    PluginsState.le app0.state (App.advance_if_ready app0).state := by
  exact (claim6_lifecycle_monotone (W := List String)).2.1 app0 _
    (Relation.ReflTransGen.single (LifecycleStep.advance app0))

/-- C7: duplicate detection identifies plugins by the `name` string, not by
object identity — any same-named unique descriptor is rejected regardless of
its other fields, distinct names are never considered duplicates, generic
plugin instantiations with different type parameters have distinct type
names, and two values of the same concrete type share one name. -/
theorem claim7_name_identity {W : Type} :
    (∀ (p q : Plugin W) (app : App W), q.name = p.name → q.is_unique = true →
      (app.afterAdding [p]).add_boxed_plugin q =
        Except.error (AppError.DuplicatePlugin q.name)) ∧
    (∀ (p q : Plugin W) (app : App W), q.name ≠ p.name →
      app.is_plugin_added q.name = false →
      (app.afterAdding [p]).add_boxed_plugin q =
        Except.ok ((app.afterAdding [p]).afterAdding [q])) ∧
    (∀ h s t : String, s ≠ t →
      type_name (RustType.generic h (RustType.base s)) ≠
        type_name (RustType.generic h (RustType.base t))) ∧
    (∀ (f g : W → W) (ty : RustType),
      (Plugin.ofBuild ty f).name = (Plugin.ofBuild ty g).name) := by
  refine ⟨?_, ?_, ?_, ?_⟩
  · intro p q app hname hq
    have htrue : (app.afterAdding [p]).is_plugin_added q.name = true := by
      rw [is_plugin_added_afterAdding_single]
      have hbeq : (p.name == q.name) = true := by simp [hname]
      simp [hbeq]
    exact add_boxed_plugin_dup _ q hq htrue
  · intro p q app hne hq
    have hfalse : (app.afterAdding [p]).is_plugin_added q.name = false := by
      rw [is_plugin_added_afterAdding_single]
      have hbeq : (p.name == q.name) = false := by
        simp only [beq_eq_false_iff_ne]
        exact fun hEq => hne hEq.symm
      simp [hq, hbeq]
    exact add_boxed_plugin_fresh _ q hfalse
  · intro h s t hne hEq
    exact hne (type_name_generic_inj h s t hEq)
  · intro f g ty
    rfl

/-- Witness for C7: a second value of the same concrete type as `pA` is
rejected as a duplicate even though its hooks differ, and the generic type
names with parameters A and B differ. -/
theorem claim7_name_identity_witness :
    pA2.name = pA.name ∧
    (app0.afterAdding [pA]).add_boxed_plugin pA2 =
      Except.error (AppError.DuplicatePlugin pA2.name) ∧
    type_name (RustType.generic "GenericPlugin" (RustType.base "A")) ≠
      type_name (RustType.generic "GenericPlugin" (RustType.base "B")) := by
  refine ⟨rfl, ?_, ?_⟩
  · exact (claim7_name_identity (W := List String)).1 pA pA2 app0 rfl rfl
  · exact (claim7_name_identity (W := List String)).2.2.1 "GenericPlugin" "A" "B"
      (by decide)

/-- C8: admitting a plugin group resolves (builds) it into its flattened
descriptor sequence first, and then admits each resolved descriptor in
order under the very policy the caller chose: strict descriptors go through
the strict single-plugin admission, idempotent ones through the idempotent
single-plugin admission. -/
theorem claim8_group_resolution {W : Type} (g : PluginGroup W) (app : App W) :
    (add_to_app (PluginsInput.group g) app =
      PluginGroupBuilder.finish false g.build app) ∧
    (add_to_app_if_new (PluginsInput.group g) app =
      PluginGroupBuilder.finish true g.build app) ∧
    (∀ (d : Plugin W) (ds : List (Plugin W)) (b : App W),
      PluginGroupBuilder.finish false (d :: ds) b =
        match add_to_app (PluginsInput.plugin d) b with
        | Outcome.ok a => PluginGroupBuilder.finish false ds a
        | Outcome.panic m a => Outcome.panic m a) ∧
    (∀ (d : Plugin W) (ds : List (Plugin W)) (b : App W),
      PluginGroupBuilder.finish true (d :: ds) b =
        match add_to_app_if_new (PluginsInput.plugin d) b with
        | Outcome.ok a => PluginGroupBuilder.finish true ds a
        | Outcome.panic m a => Outcome.panic m a) := by
  refine ⟨rfl, rfl, ?_, ?_⟩
  · intro d ds b
    cases hb : b.add_boxed_plugin d with
    | ok a => simp [PluginGroupBuilder.finish, add_to_app, hb]
    | error e =>
      cases e with
      | DuplicatePlugin n => simp [PluginGroupBuilder.finish, add_to_app, hb]
  · intro d ds b
    cases hb : b.add_boxed_plugin d with
    | ok a => simp [PluginGroupBuilder.finish, add_to_app_if_new, hb]
    | error e =>
      cases e with
      | DuplicatePlugin n =>
        simp [PluginGroupBuilder.finish, add_to_app_if_new, hb]

/-- C9: a function on the application world is itself a plugin descriptor:
admitting it invokes the function as its `build` hook, and it inherits all
the trait defaults — `ready` true, no-op `finish` and `cleanup`, `is_unique`
true, and `name` the type name of the function type. -/
theorem claim9_fn_plugin {W : Type} (ty : RustType) (f : W → W) :
    (∀ w, (fnPlugin ty f).build w = f w) ∧
    (∀ w, (fnPlugin ty f).ready w = true) ∧
    (∀ w, (fnPlugin ty f).finish w = w) ∧
    (∀ w, (fnPlugin ty f).cleanup w = w) ∧
    (fnPlugin ty f).is_unique = true ∧
    (fnPlugin ty f).name = type_name ty ∧
    (∀ app : App W, app.is_plugin_added (fnPlugin ty f).name = false →
      add_to_app (PluginsInput.plugin (fnPlugin ty f)) app =
        Outcome.ok (app.afterAdding [fnPlugin ty f]) ∧
      (app.afterAdding [fnPlugin ty f]).world = f app.world) := by
  refine ⟨fun w => rfl, fun w => rfl, fun w => rfl, fun w => rfl, rfl, rfl, ?_⟩
  intro app hfree
  exact ⟨add_to_app_fresh _ app hfree, rfl⟩

/-- Witness for C9: admitting the world function that appends the string F
into the fresh application registers one descriptor and runs the function on
the world. -/
theorem claim9_fn_plugin_witness :
    app0.is_plugin_added (fnPlugin (RustType.base "F")
      (fun w => w ++ ["F"])).name = false ∧
    add_to_app (PluginsInput.plugin (fnPlugin (RustType.base "F")
        (fun w => w ++ ["F"]))) app0 =
      Outcome.ok (app0.afterAdding [fnPlugin (RustType.base "F")
        (fun w => w ++ ["F"])]) ∧
    (app0.afterAdding [fnPlugin (RustType.base "F")
      (fun w => w ++ ["F"])]).world = ["F"] := by
  have h := (claim9_fn_plugin (RustType.base "F")
    (fun w : List String => w ++ ["F"])).2.2.2.2.2.2 app0 rfl
  exact ⟨rfl, h.1, h.2⟩

/-- C10: for a plugin whose name is not yet present, strict and idempotent
admission are observationally equivalent — both register exactly that one
descriptor and produce the same application; the empty tuple is a no-op
under either policy; and a tuple is within the arity discipline of the
source exactly when its length is at most 15. -/
theorem claim10_policy_equivalence {W : Type} (p : Plugin W) (app : App W) :
    (app.is_plugin_added p.name = false →
      add_to_app (PluginsInput.plugin p) app =
        Outcome.ok (app.afterAdding [p]) ∧
      add_to_app_if_new (PluginsInput.plugin p) app =
        Outcome.ok (app.afterAdding [p])) ∧
    (add_to_app (PluginsInput.tuple (PluginsList.nil : PluginsList W)) app =
        Outcome.ok app ∧
     add_to_app_if_new
        (PluginsInput.tuple (PluginsList.nil : PluginsList W)) app =
        Outcome.ok app) ∧
    (∀ l : PluginsList W, wfList l = true →
      (wfInput (PluginsInput.tuple l) = true ↔ l.length ≤ 15)) ∧
    wfInput (PluginsInput.tuple (PluginsList.nil : PluginsList W)) = true := by
  refine ⟨?_, ⟨rfl, rfl⟩, ?_, rfl⟩
  · intro hfree
    exact ⟨add_to_app_fresh p app hfree, add_to_app_if_new_fresh p app hfree⟩
  · intro l hl
    simp [wfInput, hl]

/-- Witness for C10: admitting the fresh plugin `pB` into the fresh
application gives identical results under the two policies, and the empty
tuple leaves the application unchanged. -/
theorem claim10_policy_equivalence_witness :
    app0.is_plugin_added pB.name = false ∧
    add_to_app (PluginsInput.plugin pB) app0 =
      Outcome.ok (app0.afterAdding [pB]) ∧
    add_to_app_if_new (PluginsInput.plugin pB) app0 =
      Outcome.ok (app0.afterAdding [pB]) ∧
    add_to_app
        (PluginsInput.tuple (PluginsList.nil : PluginsList (List String)))
        app0 = Outcome.ok app0 := by
  have h := claim10_policy_equivalence pB app0
  exact ⟨rfl, (h.1 rfl).1, (h.1 rfl).2, h.2.1.1⟩
